import Mathlib

/-!
tinyproxy: the worker pool (child.c) and the DNS cache (dnscache.c).

A shallow embedding of `src/child.c` and `src/dnscache.c`.

Conventions of the embedding.

* `unsigned int` values are natural numbers below `2 ^ 32`; `connects++` wraps.
* `*servers_waiting` is a C `int`.  It is an `Int` here; `++` and `--` are
  exact (signed overflow is undefined in C and needs more than `2 ^ 31 - 1`
  net increments).  Where the `int` meets an `unsigned int` in a comparison
  the usual arithmetic conversion is explicit: `toUnsigned`.
* `fork`, `accept`, the allocators, the clock, `inet_aton`, `gethostbyname`
  and the value of `config.quit` come from the environment and are inputs.
* `child_main` ends in `exit(0)`: a call of it never returns to its caller.
* The slot table and the counter are shared memory.  `child_pool_create` takes
  the steps of the workers it has forked as inputs; the functions that model
  one pass of one process (`child_main_loop_cycle`, `child_loop`) say in their
  comments which changes by other processes they take as inputs.
-/

namespace Tinyproxy

/-! ## child.c : data -/

/-- The enum of `struct child_s` (line 37). -/
inductive Status where
  | T_EMPTY
  | T_WAITING
  | T_CONNECTED
  deriving DecidableEq, Repr

/-- The record `struct child_s` (lines 34-38). -/
structure child_s where
  tid : Int
  connects : Nat
  status : Status
  deriving DecidableEq, Repr

/-- The record `struct child_config_s` (lines 46-49); all `unsigned int`. -/
structure child_config_s where
  maxclients : Nat
  maxrequestsperchild : Nat
  maxspareservers : Nat
  minspareservers : Nat
  startservers : Nat
  deriving DecidableEq, Repr

/-- The file-scope variables of child.c.  `none` is a pointer that has not been
given memory yet (`child_ptr`, `servers_waiting`). -/
structure Globals where
  child_config : child_config_s
  child_ptr : Option (List child_s)
  servers_waiting : Option Int
  lock_ready : Bool
  deriving DecidableEq, Repr

/-- The selector of `child_configure`; `other` stands for any value outside
the five named ones. -/
inductive child_config_t where
  | CHILD_MAXCLIENTS
  | CHILD_MAXSPARESERVERS
  | CHILD_MINSPARESERVERS
  | CHILD_STARTSERVERS
  | CHILD_MAXREQUESTSPERCHILD
  | other
  deriving DecidableEq, Repr

/-- Width of `unsigned int`. -/
def UINT_WIDTH : Nat := 2 ^ 32

/-- Conversion of an `int` to `unsigned int` (C usual arithmetic conversion). -/
def toUnsigned (c : Int) : Nat := (c % (2 ^ 32 : Int)).toNat

/-- The body of `SERVER_INC` between lock and unlock (line 112). -/
def SERVER_INC (c : Int) : Int := c + 1

/-- The body of `SERVER_DEC` between lock and unlock (line 119). -/
def SERVER_DEC (c : Int) : Int := c - 1

/-- The test of line 207: `*servers_waiting > child_config.maxspareservers`,
an `int` against an `unsigned int`. -/
def too_many_spares (c : Int) (maxspareservers : Nat) : Bool :=
  decide (maxspareservers < toUnsigned c)

/-- The test of line 342: `*servers_waiting < child_config.minspareservers`,
an `int` against an `unsigned int`. -/
def too_few_spares (c : Int) (minspareservers : Nat) : Bool :=
  decide (toUnsigned c < minspareservers)

/-- Replace the element at one index of a list (a store through
`child_ptr[i]`); an index outside the list changes nothing. -/
def modifyAt {α : Type} (f : α → α) : Nat → List α → List α
  | _, [] => []
  | 0, x :: xs => f x :: xs
  | n + 1, x :: xs => x :: modifyAt f n xs

/-- Memory as `calloc_shared_memory` hands it out: all bytes zero. -/
def zero_child : child_s := { tid := 0, connects := 0, status := Status.T_EMPTY }

/-- The function `child_configure` (lines 127-152). -/
def child_configure (type : child_config_t) (val : Nat) (cfg : child_config_s) :
    Int × child_config_s :=
  match type with
  | .CHILD_MAXCLIENTS => (0, { cfg with maxclients := val })
  | .CHILD_MAXSPARESERVERS => (0, { cfg with maxspareservers := val })
  | .CHILD_MINSPARESERVERS => (0, { cfg with minspareservers := val })
  | .CHILD_STARTSERVERS => (0, { cfg with startservers := val })
  | .CHILD_MAXREQUESTSPERCHILD => (0, { cfg with maxrequestsperchild := val })
  | .other => (-1, cfg)

/-! ## child.c : child_make -/

/-- What a call of `child_make` does to the calling process. -/
inductive Made where
  /-- `return pid;` (line 241): the caller goes on with this value. -/
  | parent (pid : Int)
  /-- Line 243: the process runs `child_main(ptr)`, which never returns, so
  the `return -1` of line 244 is never executed. -/
  | runs_child_main
  deriving DecidableEq, Repr

/-- The function `child_make` (lines 235-245), given what `fork()` returned
in this process: positive in the parent, 0 in the new child, negative when no
process could be created. -/
def child_make (fork_result : Int) : Made :=
  if fork_result > 0 then Made.parent fork_result else Made.runs_child_main

/-! ## child.c : the start of child_pool_create -/

/-- Lines 291-296: `startservers` is cut down to `maxclients`. -/
def clamp_startservers (cfg : child_config_s) : child_config_s :=
  if cfg.startservers > cfg.maxclients then { cfg with startservers := cfg.maxclients }
  else cfg

/-- Lines 271 and 298-301: the zeroed table of `maxclients` records after the
loop that stores `T_EMPTY` and 0 into every one of them. -/
def fresh_table (cfg : child_config_s) : List child_s :=
  (List.replicate cfg.maxclients zero_child).map
    (fun c => { c with status := Status.T_EMPTY, connects := 0 })

/-! ## child.c : child_main_loop -/

/-- Index of the first record whose status is `T_EMPTY`: the scan of lines
349-350. -/
def first_empty : List child_s → Option Nat
  | [] => none
  | c :: cs =>
    if c.status = Status.T_EMPTY then some 0 else (first_empty cs).map (fun i => i + 1)

/-- Lines 191-204: the connection count and the MaxRequestsPerChild test.  The
result is the record after the count and whether line 202 (`break`) is taken. -/
def count_connection (maxrequestsperchild : Nat) (c : child_s) : child_s × Bool :=
  if maxrequestsperchild ≠ 0 then
    let n := (c.connects + 1) % UINT_WIDTH
    ({ c with connects := n }, decide (n ≥ maxrequestsperchild))
  else (c, false)

/-- What the environment supplies to one pass of the worker's loop, from the
return of `accept` to the next test of the loop condition. -/
structure Conn where
  /-- The value `accept` returned (line 175). -/
  connfd : Int
  /-- Net change other processes made to `*servers_waiting` while this worker
  was inside `handle_connection`. -/
  others_handling : Int
  /-- Net change other processes made between the unlock of line 219 and the
  lock inside `SERVER_INC` of line 222. -/
  others_unlocked : Int
  /-- The flag `config.quit` as read when control is back at line 170. -/
  quit : Bool
  deriving DecidableEq, Repr

/-- Why a worker left its loop. -/
inductive Exit where
  /-- Line 166: no memory for the address buffer. -/
  | no_memory
  /-- Line 170: `config.quit` was set. -/
  | quit
  /-- Line 202: the MaxRequestsPerChild limit. -/
  | max_requests
  /-- Line 217: more spare servers than MaxSpareServers. -/
  | too_many_spares
  deriving DecidableEq, Repr

/-- A worker after the environment's events were used up.  `handled` counts the
calls of `handle_connection`; `exit = none` is a worker blocked in `accept`. -/
structure Worker where
  slot : child_s
  waiting : Int
  handled : Nat
  exit : Option Exit
  deriving DecidableEq, Repr

/-- Lines 225-228: the end of `child_main`. -/
def leave (why : Exit) (ptr : child_s) (waiting : Int) (handled : Nat) : Worker :=
  { slot := { ptr with status := Status.T_EMPTY }, waiting := waiting, handled := handled,
    exit := some why }

/-- The loop of `child_main` (lines 170-223) from the call of `accept` on,
`ptr->status = T_WAITING` (line 171) already stored. -/
def child_loop (cfg : child_config_s) : List Conn → child_s → Int → Nat → Worker
  | [], ptr, waiting, handled =>
    { slot := ptr, waiting := waiting, handled := handled, exit := none }
  | e :: es, ptr, waiting, handled =>
    if e.connfd < 0 then
      if e.quit then leave Exit.quit ptr waiting handled
      else child_loop cfg es { ptr with status := Status.T_WAITING } waiting handled
    else
      let ptr1 := { ptr with status := Status.T_CONNECTED }
      let w1 := SERVER_DEC waiting
      let w2 := w1 + e.others_handling
      let counted := count_connection cfg.maxrequestsperchild ptr1
      if counted.2 then leave Exit.max_requests counted.1 w2 (handled + 1)
      else if too_many_spares w2 cfg.maxspareservers then
        leave Exit.too_many_spares counted.1 w2 (handled + 1)
      else
        let w3 := SERVER_INC (w2 + e.others_unlocked)
        if e.quit then leave Exit.quit counted.1 w3 (handled + 1)
        else child_loop cfg es { counted.1 with status := Status.T_WAITING } w3 (handled + 1)

/-- The function `child_main` (lines 157-229).  `malloc_ok` says whether
`safemalloc` gave the address buffer, `quit` is `config.quit` at the first test
of line 170. -/
def child_main (cfg : child_config_s) (malloc_ok quit : Bool) (events : List Conn)
    (ptr : child_s) (waiting : Int) : Worker :=
  if malloc_ok = false then
    { slot := ptr, waiting := waiting, handled := 0, exit := some Exit.no_memory }
  else
    let ptr0 := { ptr with connects := 0 }
    if quit then leave Exit.quit ptr0 waiting 0
    else child_loop cfg events { ptr0 with status := Status.T_WAITING } waiting 0

/-- Number of events in which `accept` gave a connection. -/
def accepted (events : List Conn) : Nat :=
  (events.filter (fun e => decide (0 ≤ e.connfd))).length

/-- An event: a connection is accepted, nobody else touches the counter and
the shutdown flag stays unset. -/
def quiet_conn : Conn := { connfd := 3, others_handling := 0, others_unlocked := 0, quit := false }

/-! ## child.c : the supervisor and the workers side by side

One process takes one step at a time.  Every access to `*servers_waiting`
(`SERVER_INC`, `SERVER_DEC`, the two comparisons) is a step of its own, taken
between `SERVER_COUNT_LOCK` and `SERVER_COUNT_UNLOCK`. -/

/-- Where a worker stands inside `child_main`. -/
inductive WPc where
  /-- At line 164, before the buffer is allocated. -/
  | start
  /-- At the loop condition of line 170. -/
  | top
  /-- Blocked in `accept` (line 175). -/
  | accepting
  /-- After line 185, before `SERVER_DEC`. -/
  | connected
  /-- After `SERVER_DEC`, inside `handle_connection`. -/
  | handling
  /-- After the MaxRequestsPerChild test, before the lock of line 206. -/
  | checking
  /-- After the unlock of line 219, before `SERVER_INC` of line 222. -/
  | incrementing
  /-- After `exit(0)`; `after_dec` says whether the process left by a `break`
  (its last `SERVER_DEC` not followed by a `SERVER_INC`). -/
  | exited (after_dec : Bool)
  deriving DecidableEq, Repr

/-- A process running `child_main(&child_ptr[slot])`. -/
structure Proc where
  slot : Nat
  pc : WPc
  deriving DecidableEq, Repr

/-- Where the supervisor stands. -/
inductive SPc where
  /-- In `child_pool_create`, at the loop test of line 303 with index `i`. -/
  | create_spawn (i : Nat)
  /-- In `child_pool_create`, before `SERVER_INC` of line 318. -/
  | create_inc (i : Nat)
  /-- After `return -1` of line 312. -/
  | create_failed
  /-- In `child_main_loop`, at line 337. -/
  | loop_top
  /-- Before the lock of line 341. -/
  | loop_compare
  /-- After the unlock of line 347, before the scan. -/
  | loop_scan
  /-- Before `SERVER_INC` of line 361. -/
  | loop_inc
  /-- At `sleep(5)`. -/
  | loop_sleep
  /-- After `return` of line 338. -/
  | loop_returned
  /-- Inside `child_main`, entered through `child_make` after `fork()` gave
  no child. -/
  | as_worker (p : Proc)
  deriving DecidableEq, Repr

/-- The memory all processes share, with two counters of the operations
performed on `*servers_waiting`. -/
structure Shared where
  slots : List child_s
  waiting : Int
  incs : Nat
  decs : Nat
  deriving DecidableEq, Repr

/-- The whole system. -/
structure Sys where
  cfg : child_config_s
  quit : Bool
  shared : Shared
  sup : SPc
  procs : List Proc
  deriving DecidableEq, Repr

/-- What the environment hands to the step a process takes. -/
structure Inputs where
  fork_result : Int
  malloc_ok : Bool
  connfd : Int
  deriving DecidableEq, Repr

/-- One step of the system. -/
inductive Action where
  | supervisor (env : Inputs)
  | worker (n : Nat) (env : Inputs)
  | set_quit
  deriving DecidableEq, Repr

/-- The body of `SERVER_INC` on the shared memory. -/
def Shared.inc (sh : Shared) : Shared :=
  { sh with waiting := SERVER_INC sh.waiting, incs := sh.incs + 1 }

/-- The body of `SERVER_DEC` on the shared memory. -/
def Shared.dec (sh : Shared) : Shared :=
  { sh with waiting := SERVER_DEC sh.waiting, decs := sh.decs + 1 }

/-- A store of a status through `ptr`. -/
def Shared.set_status (sh : Shared) (i : Nat) (st : Status) : Shared :=
  { sh with slots := modifyAt (fun c => { c with status := st }) i sh.slots }

/-- One step of a process inside `child_main`. -/
def worker_step (cfg : child_config_s) (quit : Bool) (env : Inputs) (p : Proc)
    (sh : Shared) : Proc × Shared :=
  match p.pc with
  | WPc.start =>
    if env.malloc_ok = false then ({ p with pc := WPc.exited false }, sh)
    else ({ p with pc := WPc.top },
          { sh with slots := modifyAt (fun c => { c with connects := 0 }) p.slot sh.slots })
  | WPc.top =>
    if quit then ({ p with pc := WPc.exited false }, sh.set_status p.slot Status.T_EMPTY)
    else ({ p with pc := WPc.accepting }, sh.set_status p.slot Status.T_WAITING)
  | WPc.accepting =>
    if env.connfd < 0 then ({ p with pc := WPc.top }, sh)
    else ({ p with pc := WPc.connected }, sh.set_status p.slot Status.T_CONNECTED)
  | WPc.connected => ({ p with pc := WPc.handling }, sh.dec)
  | WPc.handling =>
    let fired := match sh.slots[p.slot]? with
      | some c => (count_connection cfg.maxrequestsperchild c).2
      | none => false
    let counted := modifyAt (fun c => (count_connection cfg.maxrequestsperchild c).1) p.slot sh.slots
    let sh1 := { sh with slots := counted }
    if fired then ({ p with pc := WPc.exited true }, sh1.set_status p.slot Status.T_EMPTY)
    else ({ p with pc := WPc.checking }, sh1)
  | WPc.checking =>
    if too_many_spares sh.waiting cfg.maxspareservers then
      ({ p with pc := WPc.exited true }, sh.set_status p.slot Status.T_EMPTY)
    else ({ p with pc := WPc.incrementing }, sh)
  | WPc.incrementing => ({ p with pc := WPc.top }, sh.inc)
  | WPc.exited b => ({ p with pc := WPc.exited b }, sh)

/-- One step of the supervisor. -/
def supervisor_step (env : Inputs) (s : Sys) : Sys :=
  match s.sup with
  | SPc.create_spawn i =>
    if i < s.cfg.startservers then
      let sh1 := s.shared.set_status i Status.T_WAITING
      match child_make env.fork_result with
      | Made.runs_child_main => { s with shared := sh1, sup := SPc.as_worker ⟨i, WPc.start⟩ }
      | Made.parent pid =>
        let sh2 := { sh1 with slots := modifyAt (fun c => { c with tid := pid }) i sh1.slots }
        if pid < 0 then { s with shared := sh2, sup := SPc.create_failed }
        else { s with shared := sh2, sup := SPc.create_inc i,
                      procs := s.procs ++ [⟨i, WPc.start⟩] }
    else { s with sup := SPc.loop_top }
  | SPc.create_inc i => { s with shared := s.shared.inc, sup := SPc.create_spawn (i + 1) }
  | SPc.create_failed => s
  | SPc.loop_top =>
    if s.quit then { s with sup := SPc.loop_returned } else { s with sup := SPc.loop_compare }
  | SPc.loop_compare =>
    if too_few_spares s.shared.waiting s.cfg.minspareservers then { s with sup := SPc.loop_scan }
    else { s with sup := SPc.loop_sleep }
  | SPc.loop_scan =>
    match first_empty (s.shared.slots.take s.cfg.maxclients) with
    | none => { s with sup := SPc.loop_sleep }
    | some i =>
      let sh1 := s.shared.set_status i Status.T_WAITING
      match child_make env.fork_result with
      | Made.runs_child_main => { s with shared := sh1, sup := SPc.as_worker ⟨i, WPc.start⟩ }
      | Made.parent pid =>
        let sh2 := { sh1 with slots := modifyAt (fun c => { c with tid := pid }) i sh1.slots }
        if pid < 0 then
          { s with shared := sh2.set_status i Status.T_EMPTY, sup := SPc.loop_sleep }
        else { s with shared := sh2, sup := SPc.loop_inc, procs := s.procs ++ [⟨i, WPc.start⟩] }
  | SPc.loop_inc => { s with shared := s.shared.inc, sup := SPc.loop_sleep }
  | SPc.loop_sleep => { s with sup := SPc.loop_top }
  | SPc.loop_returned => s
  | SPc.as_worker p =>
    let r := worker_step s.cfg s.quit env p s.shared
    { s with shared := r.2, sup := SPc.as_worker r.1 }

/-- One step of the system; a step of a process that does not exist changes
nothing. -/
def step (s : Sys) : Action → Sys
  | Action.supervisor env => supervisor_step env s
  | Action.worker n env =>
    match s.procs[n]? with
    | none => s
    | some p =>
      let r := worker_step s.cfg s.quit env p s.shared
      { s with shared := r.2, procs := s.procs.set n r.1 }
  | Action.set_quit => { s with quit := true }

/-- A run: the steps of a schedule, one after the other. -/
def run (s : Sys) (schedule : List Action) : Sys := schedule.foldl step s

/-- The system when `child_pool_create` has passed its checks and allocations
(lines 260-301) and is about to enter the loop of line 303. -/
def start_sys (cfg : child_config_s) : Sys :=
  { cfg := clamp_startservers cfg, quit := false,
    shared := { slots := fresh_table (clamp_startservers cfg), waiting := 0, incs := 0, decs := 0 },
    sup := SPc.create_spawn 0, procs := [] }

/-- What a process inside `child_main` has added to `*servers_waiting` by its
own `SERVER_DEC` and `SERVER_INC` operations. -/
def WPc.balance : WPc → Int
  | WPc.handling => -1
  | WPc.checking => -1
  | WPc.incrementing => -1
  | WPc.exited true => -1
  | _ => 0

/-- The supervisor's `SERVER_INC` for a worker it spawned, still to come (-1),
or, when the supervisor itself runs `child_main`, the balance of that. -/
def SPc.owed : SPc → Int
  | SPc.create_inc _ => -1
  | SPc.loop_inc => -1
  | SPc.as_worker p => p.pc.balance
  | _ => 0

/-- The sum over the spawned workers of the supervisor's increment for each
and the worker's own balance. -/
def credit (procs : List Proc) : Int := (procs.map (fun p => 1 + p.pc.balance)).sum

/-- Environment inputs of a step in which `fork()` gives pid 100 and `accept`
gives descriptor 3. -/
def fine : Inputs := { fork_result := 100, malloc_ok := true, connfd := 3 }

/-! ## child.c : child_pool_create

The table and the counter live in shared memory (`calloc_shared_memory`,
`malloc_shared_memory`): a worker forked at line 306 runs `child_main` on them
while the supervisor is still inside `child_pool_create`.  The steps the
workers take meanwhile are inputs of the function. -/

/-- One step of an already forked worker: the `n`-th process forked by this
run takes a step of `child_main`, reading `quit` for `config.quit`. -/
structure Move where
  n : Nat
  quit : Bool
  env : Inputs
  deriving DecidableEq, Repr

/-- The effect of one worker step on the forked processes and the shared
memory; a step of a process that does not exist changes nothing. -/
def worker_move (cfg : child_config_s) (m : Move) (st : List Proc × Shared) :
    List Proc × Shared :=
  match st.1[m.n]? with
  | none => st
  | some p =>
    let r := worker_step cfg m.quit m.env p st.2
    (st.1.set m.n r.1, r.2)

/-- The effect of a sequence of worker steps. -/
def worker_moves (cfg : child_config_s) (ms : List Move) (st : List Proc × Shared) :
    List Proc × Shared :=
  ms.foldl (fun acc m => worker_move cfg m acc) st

/-- What the environment decides during one run of `child_pool_create`. -/
structure PoolEnv where
  /-- The call `calloc_shared_memory` returned a non-NULL pointer. -/
  calloc_ok : Bool
  /-- The call `malloc_shared_memory` did not return `MAP_FAILED`. -/
  malloc_ok : Bool
  /-- The value `fork()` returns to this process at its n-th call. -/
  fork : Nat → Int
  /-- The steps the workers forked so far take between the `fork()` of
  iteration `i` (line 306) and the lock of its `SERVER_INC` (line 318). -/
  before_inc : Nat → List Move := fun _ => []
  /-- The steps the workers forked so far take between the unlock of the
  `SERVER_INC` of iteration `i` and the supervisor's next access to the shared
  memory (line 305 of the next iteration) or its `return 0`. -/
  after_inc : Nat → List Move := fun _ => []

/-- How a function of the supervisor ends in the process that called it. -/
inductive Outcome where
  /-- It returned `ret`; `forks` counts the calls of `fork()` it made. -/
  | returned (ret : Int) (g : Globals) (forks : Nat)
  /-- The process entered `child_main(&child_ptr[slot])` through `child_make`
  and never comes back. -/
  | in_child_main (slot : Nat) (g : Globals) (forks : Nat)
  deriving DecidableEq, Repr

/-- How the population loop (lines 303-320) ends. -/
inductive Populated where
  | finished (slots : List child_s) (waiting : Int) (forks : Nat)
  | failed (slots : List child_s) (waiting : Int) (forks : Nat)
  | in_child_main (slot : Nat) (slots : List child_s) (waiting : Int) (forks : Nat)
  deriving DecidableEq, Repr

/-- The loop of lines 303-320, `for (i = ...; i < startservers; i++)`, with
`remaining = startservers - i`; the n-th iteration makes the n-th `fork()`.
`procs` are the workers forked so far, `sh` is the shared memory.  A worker
writes only its own record and the counter, so its steps before line 305 of
an iteration count among those after the `SERVER_INC` of the one before. -/
def populate (cfg : child_config_s) (env : PoolEnv) :
    Nat → Nat → List Proc → Shared → Populated
  | 0, i, _, sh => Populated.finished sh.slots sh.waiting i
  | remaining + 1, i, procs, sh =>
    let sh1 := sh.set_status i Status.T_WAITING
    match child_make (env.fork i) with
    | Made.runs_child_main => Populated.in_child_main i sh1.slots sh1.waiting (i + 1)
    | Made.parent pid =>
      let sh2 := { sh1 with slots := modifyAt (fun c => { c with tid := pid }) i sh1.slots }
      if pid < 0 then Populated.failed sh2.slots sh2.waiting (i + 1)
      else
        let a := worker_moves cfg (env.before_inc i) (procs ++ [⟨i, WPc.start⟩], sh2)
        let b := worker_moves cfg (env.after_inc i) (a.1, a.2.inc)
        populate cfg env remaining (i + 1) b.1 b.2

/-- The function `child_pool_create` (lines 250-325), run from loop index 0. -/
def child_pool_create (env : PoolEnv) (g : Globals) : Outcome :=
  if g.child_config.maxclients = 0 then Outcome.returned (-1) g 0
  else if g.child_config.startservers = 0 then Outcome.returned (-1) g 0
  else if env.calloc_ok = false then Outcome.returned (-1) { g with child_ptr := none } 0
  else if env.malloc_ok = false then
    Outcome.returned (-1)
      { g with child_ptr := some (List.replicate g.child_config.maxclients zero_child),
               servers_waiting := none } 0
  else
    let cfg := clamp_startservers g.child_config
    let fin := fun (slots : List child_s) (waiting : Int) =>
      ({ child_config := cfg, child_ptr := some slots, servers_waiting := some waiting,
         lock_ready := true } : Globals)
    match populate cfg env cfg.startservers 0 []
        { slots := fresh_table cfg, waiting := 0, incs := 0, decs := 0 } with
    | Populated.finished slots waiting n => Outcome.returned 0 (fin slots waiting) n
    | Populated.failed slots waiting n => Outcome.returned (-1) (fin slots waiting) n
    | Populated.in_child_main i slots waiting n => Outcome.in_child_main i (fin slots waiting) n

/-- The program's state before `child_pool_create`: nothing allocated. -/
def boot (cfg : child_config_s) : Globals :=
  { child_config := cfg, child_ptr := none, servers_waiting := none, lock_ready := false }

/-- Number of slots in status Waiting. -/
def count_waiting (slots : List child_s) : Nat :=
  (slots.filter (fun c => decide (c.status = Status.T_WAITING))).length

/-- A worker step in which the worker is not told to shut down, gets its
address buffer and gets no connection from `accept`. -/
def Move.quiet (m : Move) : Prop :=
  m.quit = false ∧ m.env.malloc_ok = true ∧ m.env.connfd < 0

/-- A worker that has not got past `accept`, with its record (if it has one)
Waiting and without connections. -/
def Resting (slots : List child_s) (p : Proc) : Prop :=
  (p.pc = WPc.start ∨ p.pc = WPc.top ∨ p.pc = WPc.accepting) ∧
  ∀ c, slots[p.slot]? = some c → c.status = Status.T_WAITING ∧ c.connects = 0

/-- The four steps that take a fresh worker `n` from line 164 through `accept`
(a connection arrives at once) to the end of its `SERVER_DEC`. -/
def takes_connection (n : Nat) : List Move :=
  [⟨n, false, fine⟩, ⟨n, false, fine⟩, ⟨n, false, fine⟩, ⟨n, false, fine⟩]

/-! ## dnscache.c -/

/-- The record `struct dnscache_s` (lines 47-50): an IPv4 address and the time
the record was made. -/
structure dnscache_s where
  ipaddr : Nat
  expire : Int
  deriving DecidableEq, Repr

/-- The constant `DNSEXPIRE` (line 45). -/
def DNSEXPIRE : Int := 5 * 60

/-- Modelled from the spec: the return codes of the ternary tree, whose
header ternary.h is not among the sources.  dnscache.c names `TE_EXISTS` and
tests the others through `TE_ISERROR` only; the spec speaks of a key collision
reported by the insert and of an insert that fails otherwise. -/
inductive TE where
  | TE_NONE
  | TE_EXISTS
  | TE_NOTFOUND
  | TE_BADTREE
  | TE_TOOFULL
  deriving DecidableEq, Repr

/-- Modelled from the spec: the test `TE_ISERROR` of ternary.h, every code but
success. -/
def TE_ISERROR (r : TE) : Bool := decide (r ≠ TE.TE_NONE)

/-- The state dnscache.c works on: the handle `dns_tree` (line 52, -1 before
the tree is made), the keys of that tree with the data pointer stored under
each, and the records given out by `malloc` (a pointer is an index, `none` a
record that was freed). -/
structure Cache where
  dns_tree : Int
  tree : List (String × Nat)
  heap : List (Option dnscache_s)
  deriving DecidableEq, Repr

/-- The calls dnscache.c makes to its collaborators. -/
inductive Call where
  | ternary_new
  | ternary_search
  | ternary_insert
  | gethostbyname
  | malloc
  | free
  deriving DecidableEq, Repr

/-- What the environment supplies to one call of `dnscache`. -/
structure DnsEnv where
  /-- The libc function `inet_aton`: the address a string denotes, if any. -/
  inet_aton : String → Option Nat
  /-- What `ternary_new()` returns if it is called. -/
  ternary_new : Int
  /-- The clock read in `dns_lookup` (line 80). -/
  now_lookup : Int
  /-- The answer of `gethostbyname`: `none` for NULL, else `h_addr_list[0]`. -/
  gethostbyname : Option Nat
  /-- Whether `malloc` gives a record (line 101). -/
  malloc_ok : Bool
  /-- The clock read in `dns_insert` (line 106). -/
  now_insert : Int
  /-- Whether the tree takes a key that is new to it (it has room). -/
  tree_accepts : Bool

/-- Modelled from the spec: `ternary_search` of the absent ternary.c, the
lookup of an associative container.  It gives the code and the data pointer
stored under the key. -/
def ternary_search (c : Cache) (key : String) : TE × Nat :=
  if c.dns_tree < 0 then (TE.TE_BADTREE, 0)
  else
    match c.tree.find? (fun kv => decide (kv.1 = key)) with
    | some kv => (TE.TE_NONE, kv.2)
    | none => (TE.TE_NOTFOUND, 0)

/-- Modelled from the spec: `ternary_insert` of the absent ternary.c.  A key
already present is a collision, reported as `TE_EXISTS` with the tree left as
it is; a new key is stored unless the tree has no room. -/
def ternary_insert (accepts : Bool) (c : Cache) (key : String) (data : Nat) : TE × Cache :=
  if c.dns_tree < 0 then (TE.TE_BADTREE, c)
  else if (c.tree.find? (fun kv => decide (kv.1 = key))).isSome then (TE.TE_EXISTS, c)
  else if accepts = false then (TE.TE_TOOFULL, c)
  else (TE.TE_NONE, { c with tree := (key, data) :: c.tree })

/-- The libc function `free` on a record: `none` when the pointer does not
name a live record (undefined behaviour). -/
def free_record (c : Cache) (ptr : Nat) : Option Cache :=
  match c.heap[ptr]? with
  | some (some _) => some { c with heap := c.heap.set ptr none }
  | _ => none

/-- What `dns_lookup` gives. -/
inductive Looked where
  /-- It returned 0 and stored the address. -/
  | hit (addr : Nat)
  /-- It returned -1. -/
  | miss
  /-- It read a record that had been freed: undefined behaviour. -/
  | undefined
  deriving DecidableEq, Repr

/-- The function `dns_lookup` (lines 68-89); `now` is `time(NULL)`. -/
def dns_lookup (now : Int) (c : Cache) (domain : String) : Looked :=
  let found := ternary_search c domain
  if TE_ISERROR found.1 then Looked.miss
  else
    match c.heap[found.2]? with
    | some (some r) => if now - r.expire > DNSEXPIRE then Looked.miss else Looked.hit r.ipaddr
    | _ => Looked.undefined

/-- What `dns_insert` gives: its return value (`none` when it ran into
undefined behaviour), the state and the calls it made. -/
structure Inserted where
  ret : Option Int
  cache : Cache
  calls : List Call
  deriving DecidableEq, Repr

/-- The function `dns_insert` (lines 91-142). -/
def dns_insert (env : DnsEnv) (c : Cache) (addr : Nat) (domain : String) : Inserted :=
  if env.malloc_ok = false then { ret := some (-1), cache := c, calls := [Call.malloc] }
  else
    let newptr := c.heap.length
    let c1 := { c with heap := c.heap ++ [some { ipaddr := addr, expire := env.now_insert }] }
    let first := ternary_insert env.tree_accepts c1 domain newptr
    if TE_ISERROR first.1 then
      if first.1 = TE.TE_EXISTS then
        let found := ternary_search first.2 domain
        if TE_ISERROR found.1 then
          { ret := some (-1), cache := { first.2 with heap := first.2.heap.set newptr none },
            calls := [Call.malloc, Call.ternary_insert, Call.ternary_search, Call.free] }
        else
          match free_record first.2 found.2 with
          | none =>
            { ret := none, cache := first.2,
              calls := [Call.malloc, Call.ternary_insert, Call.ternary_search, Call.free] }
          | some c2 =>
            let second := ternary_insert env.tree_accepts c2 domain newptr
            if TE_ISERROR second.1 then
              { ret := some (-1), cache := { second.2 with heap := second.2.heap.set newptr none },
                calls := [Call.malloc, Call.ternary_insert, Call.ternary_search, Call.free,
                          Call.ternary_insert, Call.free] }
            else
              { ret := some 0, cache := second.2,
                calls := [Call.malloc, Call.ternary_insert, Call.ternary_search, Call.free,
                          Call.ternary_insert] }
      else
        { ret := some (-1), cache := { first.2 with heap := first.2.heap.set newptr none },
          calls := [Call.malloc, Call.ternary_insert, Call.free] }
    else { ret := some 0, cache := first.2, calls := [Call.malloc, Call.ternary_insert] }

/-- What `dnscache` answers. -/
inductive Answer where
  /-- It returned 0 with this address in `*addr`. -/
  | ok (addr : Nat)
  /-- It returned -1. -/
  | failed
  /-- It ran into undefined behaviour (a freed record was read or freed). -/
  | undefined
  deriving DecidableEq, Repr

/-- What one call of `dnscache` gives: the answer, the state afterwards and
the calls made to the collaborators, in order. -/
structure Resolved where
  answer : Answer
  cache : Cache
  calls : List Call
  deriving DecidableEq, Repr

/-- Lines 152-155: the tree is made by the first call that finds none. -/
def ensure_tree (env : DnsEnv) (c : Cache) : Cache × List Call :=
  if c.dns_tree < 0 then ({ c with dns_tree := env.ternary_new }, [Call.ternary_new])
  else (c, [])

/-- The function `dnscache` (lines 144-177). -/
def dnscache (env : DnsEnv) (c : Cache) (domain : String) : Resolved :=
  let made := ensure_tree env c
  match env.inet_aton domain with
  | some a => { answer := Answer.ok a, cache := made.1, calls := made.2 }
  | none =>
    match dns_lookup env.now_lookup made.1 domain with
    | Looked.hit a =>
      { answer := Answer.ok a, cache := made.1, calls := made.2 ++ [Call.ternary_search] }
    | Looked.undefined =>
      { answer := Answer.undefined, cache := made.1, calls := made.2 ++ [Call.ternary_search] }
    | Looked.miss =>
      match env.gethostbyname with
      | none =>
        { answer := Answer.failed, cache := made.1,
          calls := made.2 ++ [Call.ternary_search, Call.gethostbyname] }
      | some a =>
        let ins := dns_insert env made.1 a domain
        { answer := if ins.ret.isSome then Answer.ok a else Answer.undefined,
          cache := ins.cache,
          calls := made.2 ++ [Call.ternary_search, Call.gethostbyname] ++ ins.calls }

/-- The state of a process that has not called `dnscache` yet. -/
def no_cache : Cache := { dns_tree := -1, tree := [], heap := [] }

/-- Number of calls of `gethostbyname` in a list of calls. -/
def resolutions (calls : List Call) : Nat := calls.count Call.gethostbyname

/-- The entry the cache holds for a domain: the record the tree points to, if
the key is there and the record is alive. -/
def entry (c : Cache) (domain : String) : Option dnscache_s :=
  if TE_ISERROR (ternary_search c domain).1 then none
  else (c.heap[(ternary_search c domain).2]?).join

/-- A resolver for examples: it knows the literal 127.0.0.1 only. -/
def literal_localhost (s : String) : Option Nat :=
  if s = "127.0.0.1" then some 2130706433 else none

/-- An environment for examples: the tree handle is 0, the clock reads
`now`, the resolver answers `answer`, `malloc` and the tree do not fail. -/
def calm (now : Int) (answer : Option Nat) : DnsEnv :=
  { inet_aton := literal_localhost, ternary_new := 0, now_lookup := now,
    gethostbyname := answer, malloc_ok := true, now_insert := now, tree_accepts := true }

/-- The record the supervisor leaves in slot `j` after it spawned a worker
into it: the pid `fork()` gave, no connections, Waiting. -/
def spawned (fork : Nat → Int) (j : Nat) : child_s :=
  { tid := fork j, connects := 0, status := Status.T_WAITING }

/-- A table of `maxclients` records whose first `k` hold spawned workers and
whose others are Empty with no connections. -/
def populated_table (fork : Nat → Int) (maxclients k : Nat) : List child_s :=
  (List.range k).map (spawned fork) ++ List.replicate (maxclients - k) zero_child

/-- An environment for examples: both allocations succeed and every `fork()`
gives the parent a positive pid. -/
def generous : PoolEnv := { calloc_ok := true, malloc_ok := true, fork := fun n => 100 + n }

/-- An environment for examples: as `generous`, and after every `SERVER_INC`
worker 0 takes three steps: it resets its count, stores Waiting, and `accept`
comes back without a connection. -/
def patient : PoolEnv :=
  { generous with
    after_inc := fun _ =>
      [⟨0, false, { fine with connfd := -1 }⟩, ⟨0, false, { fine with connfd := -1 }⟩,
       ⟨0, false, { fine with connfd := -1 }⟩] }

/-- An environment for examples: as `generous`, and worker 0 takes a connection
and runs its `SERVER_DEC` before the supervisor runs the `SERVER_INC` for it. -/
def hasty : PoolEnv :=
  { generous with before_inc := fun i => if i = 0 then takes_connection 0 else [] }


/-- The two facts every step of the system keeps: the counter is the number
of increments less the number of decrements, and it is the credit of the
spawned workers plus what the supervisor owes. -/
def Balanced (s : Sys) : Prop :=
  s.shared.waiting = (s.shared.incs : Int) - (s.shared.decs : Int) ∧
  s.shared.waiting = credit s.procs + s.sup.owed

/-- A schedule for a pool with StartServers 1: the supervisor spawns the
worker of slot 0, which starts, reaches `accept`, takes a connection and runs
`SERVER_DEC`, all before the supervisor runs `SERVER_INC` for it. -/
def eager_worker : List Action :=
  [Action.supervisor fine, Action.worker 0 fine, Action.worker 0 fine, Action.worker 0 fine,
   Action.worker 0 fine]

end Tinyproxy

/-! # Theorems -/

namespace Tinyproxy

/-! ## Lists -/

theorem modifyAt_length {α : Type} (f : α → α) (i : Nat) (l : List α) :
    (modifyAt f i l).length = l.length := by
  induction l generalizing i with
  | nil => cases i <;> rfl
  | cons x xs ih => cases i with
    | zero => rfl
    | succ n => simp [modifyAt, ih]

theorem modifyAt_append_cons {α : Type} (f : α → α) (pre : List α) (x : α) (post : List α) :
    modifyAt f pre.length (pre ++ x :: post) = pre ++ f x :: post := by
  induction pre with
  | nil => rfl
  | cons y ys ih => simp [modifyAt, ih]

/-! ## child_pool_create -/

theorem fresh_table_eq (cfg : child_config_s) :
    fresh_table cfg = List.replicate cfg.maxclients zero_child := by
  simp [fresh_table, zero_child]

theorem modifyAt_id {α : Type} (f : α → α) (i : Nat) (l : List α)
    (h : ∀ c, l[i]? = some c → f c = c) : modifyAt f i l = l := by
  induction l generalizing i with
  | nil => cases i <;> rfl
  | cons x xs ih =>
    cases i with
    | zero => simp [modifyAt, h x (by simp)]
    | succ n =>
      simp only [modifyAt, List.cons.injEq, true_and]
      exact ih n (fun c hc => h c (by simpa using hc))

/-- A quiet step of a resting worker writes into the shared memory only what
is there already, and leaves the worker resting. -/
theorem worker_step_quiet (cfg : child_config_s) (m : Move) (p : Proc) (sh : Shared)
    (hm : m.quiet) (hp : Resting sh.slots p) :
    (worker_step cfg m.quit m.env p sh).2 = sh ∧
    Resting sh.slots (worker_step cfg m.quit m.env p sh).1 := by
  obtain ⟨hq, hmal, hfd⟩ := hm
  obtain ⟨hpc, hslot⟩ := hp
  obtain ⟨slot, pc⟩ := p
  simp only at hpc hslot
  rcases hpc with h | h | h
  · subst h
    have hid : modifyAt (fun c : child_s => { c with connects := 0 }) slot sh.slots = sh.slots :=
      modifyAt_id _ _ _ (fun c hc => by
        have := (hslot c hc).2
        cases c; simp_all)
    simp [worker_step, hmal, hid, Resting]
    exact hslot
  · subst h
    have hid : modifyAt (fun c : child_s => { c with status := Status.T_WAITING }) slot sh.slots
        = sh.slots :=
      modifyAt_id _ _ _ (fun c hc => by
        have := (hslot c hc).1
        cases c; simp_all)
    simp [worker_step, hq, Shared.set_status, hid, Resting]
    exact hslot
  · subst h
    simp [worker_step, hfd, Resting]
    exact hslot

theorem worker_move_quiet (cfg : child_config_s) (m : Move) (procs : List Proc) (sh : Shared)
    (hm : m.quiet) (hp : ∀ p ∈ procs, Resting sh.slots p) :
    (worker_move cfg m (procs, sh)).2 = sh ∧
    (worker_move cfg m (procs, sh)).1.length = procs.length ∧
    ∀ p ∈ (worker_move cfg m (procs, sh)).1, Resting sh.slots p := by
  unfold worker_move
  cases hget : procs[m.n]? with
  | none => exact ⟨rfl, rfl, hp⟩
  | some p =>
    have hmem : p ∈ procs := List.mem_iff_getElem?.mpr ⟨m.n, hget⟩
    have h := worker_step_quiet cfg m p sh hm (hp p hmem)
    refine ⟨h.1, by simp, fun q hq => ?_⟩
    rcases List.mem_or_eq_of_mem_set hq with hq | hq
    · exact hp q hq
    · rw [hq]; exact h.2

theorem worker_moves_quiet (cfg : child_config_s) (ms : List Move) :
    ∀ (procs : List Proc) (sh : Shared), (∀ m ∈ ms, m.quiet) →
      (∀ p ∈ procs, Resting sh.slots p) →
      (worker_moves cfg ms (procs, sh)).2 = sh ∧
      (worker_moves cfg ms (procs, sh)).1.length = procs.length ∧
      ∀ p ∈ (worker_moves cfg ms (procs, sh)).1, Resting sh.slots p := by
  induction ms with
  | nil => intro procs sh _ hp; exact ⟨rfl, rfl, hp⟩
  | cons m ms ih =>
    intro procs sh hm hp
    obtain ⟨h1, h2, h3⟩ := worker_move_quiet cfg m procs sh (hm m (by simp)) hp
    have hstep : worker_move cfg m (procs, sh) = ((worker_move cfg m (procs, sh)).1, sh) :=
      Prod.ext rfl h1
    have := ih (worker_move cfg m (procs, sh)).1 sh (fun x hx => hm x (by simp [hx])) h3
    simp only [worker_moves, List.foldl_cons] at this ⊢
    rw [hstep]
    exact ⟨this.1, by rw [this.2.1, h2], this.2.2⟩

theorem resting_spawned (fork : Nat → Int) (pre post : List child_s) :
    Resting (pre ++ spawned fork pre.length :: post) ⟨pre.length, WPc.start⟩ := by
  refine ⟨Or.inl rfl, fun c hc => ?_⟩
  simp only [List.getElem?_append_right (Nat.le_refl _), Nat.sub_self,
    List.getElem?_cons_zero, Option.some.injEq] at hc
  subst hc
  exact ⟨rfl, rfl⟩

theorem resting_after_spawn (fork : Nat → Int) (pre post : List child_s) (z : child_s)
    (p : Proc) (h : Resting (pre ++ z :: post) p) :
    Resting (pre ++ spawned fork pre.length :: post) p := by
  refine ⟨h.1, fun c hc => ?_⟩
  by_cases hs : p.slot = pre.length
  · rw [hs] at hc
    simp only [List.getElem?_append_right (Nat.le_refl _), Nat.sub_self,
      List.getElem?_cons_zero, Option.some.injEq] at hc
    subst hc
    exact ⟨rfl, rfl⟩
  · apply h.2 c
    rw [← hc]
    rcases Nat.lt_or_gt_of_ne hs with hlt | hgt
    · rw [List.getElem?_append_left hlt, List.getElem?_append_left hlt]
    · rw [List.getElem?_append_right (by omega), List.getElem?_append_right (by omega)]
      obtain ⟨k, hk⟩ : ∃ k, p.slot - pre.length = k + 1 := ⟨p.slot - pre.length - 1, by omega⟩
      rw [hk]
      simp

theorem populate_all_spawned (cfg : child_config_s) (env : PoolEnv)
    (hb : ∀ i, ∀ m ∈ env.before_inc i, m.quiet) (ha : ∀ i, ∀ m ∈ env.after_inc i, m.quiet)
    (r : Nat) :
    ∀ (i e : Nat) (pre : List child_s) (procs : List Proc) (w : Int) (ni nd : Nat),
      pre.length = i →
      (∀ j, i ≤ j → j < i + r → 0 < env.fork j) →
      (∀ p ∈ procs, Resting (pre ++ List.replicate (r + e) zero_child) p) →
      populate cfg env r i procs
          { slots := pre ++ List.replicate (r + e) zero_child, waiting := w, incs := ni,
            decs := nd } =
        Populated.finished
          (pre ++ (List.range' i r).map (spawned env.fork) ++ List.replicate e zero_child)
          (w + r) (i + r) := by
  induction r with
  | zero => intro i e pre procs w ni nd _ _ _; simp [populate]
  | succ r ih =>
    intro i e pre procs w ni nd hlen hfork hrest
    have hpos : 0 < env.fork i := hfork i (Nat.le_refl _) (by omega)
    have hrep : List.replicate (r + 1 + e) zero_child
        = zero_child :: List.replicate (r + e) zero_child := by
      rw [show r + 1 + e = (r + e) + 1 by omega, List.replicate_succ]
    have hnot : ¬ env.fork i < 0 := by omega
    rw [hrep] at hrest ⊢
    simp only [populate, child_make, hpos, if_true, hnot, if_false, gt_iff_lt,
      Shared.set_status]
    rw [← hlen, modifyAt_append_cons, modifyAt_append_cons]
    have hsp : (⟨env.fork pre.length, zero_child.connects, Status.T_WAITING⟩ : child_s)
        = spawned env.fork pre.length := rfl
    simp only [hsp]
    have hrest1 : ∀ p ∈ procs ++ [⟨pre.length, WPc.start⟩],
        Resting (pre ++ spawned env.fork pre.length :: List.replicate (r + e) zero_child) p := by
      intro p hp
      rcases List.mem_append.mp hp with hp | hp
      · exact resting_after_spawn _ _ _ _ _ (hrest p hp)
      · simp only [List.mem_singleton] at hp
        rw [hp]
        exact resting_spawned _ _ _
    obtain ⟨a1, _, a3⟩ := worker_moves_quiet cfg (env.before_inc pre.length) _
      { slots := pre ++ spawned env.fork pre.length :: List.replicate (r + e) zero_child,
        waiting := w, incs := ni, decs := nd } (hb _) hrest1
    rw [a1]
    obtain ⟨b1, _, b3⟩ := worker_moves_quiet cfg (env.after_inc pre.length) _
      (Shared.inc { slots := pre ++ spawned env.fork pre.length ::
        List.replicate (r + e) zero_child, waiting := w, incs := ni, decs := nd }) (ha _) a3
    rw [b1]
    have hstep := ih (pre.length + 1) e (pre ++ [spawned env.fork pre.length]) _
      (SERVER_INC w) (ni + 1) nd (by simp)
      (fun j h1 h2 => hfork j (by omega) (by omega))
      (by simpa [Shared.inc] using b3)
    simp only [List.append_assoc, List.singleton_append] at hstep
    simp only [Shared.inc]
    rw [hstep]
    simp [List.range'_succ, SERVER_INC, hlen]
    constructor <;> omega

theorem count_waiting_populated (fork : Nat → Int) (m k : Nat) :
    count_waiting (populated_table fork m k) = k := by
  simp [count_waiting, populated_table, List.filter_append, spawned, zero_child,
    List.filter_map, Function.comp_def]

theorem populated_table_get_low (fork : Nat → Int) (m k j : Nat) (h : j < k) :
    (populated_table fork m k)[j]? = some (spawned fork j) := by
  unfold populated_table
  rw [List.getElem?_append_left (by simpa using h)]
  simp [h]

theorem populated_table_get_high (fork : Nat → Int) (m k j : Nat) (h : k ≤ j) (hm : j < m) :
    (populated_table fork m k)[j]? = some zero_child := by
  unfold populated_table
  rw [List.getElem?_append_right (by simpa using h)]
  simp only [List.length_map, List.length_range]
  rw [List.getElem?_replicate]
  simp
  omega

theorem populated_table_length (fork : Nat → Int) (m k : Nat) (h : k ≤ m) :
    (populated_table fork m k).length = m := by
  simp [populated_table]
  omega

theorem child_pool_create_ok (env : PoolEnv) (g : Globals)
    (hmax : 0 < g.child_config.maxclients) (hstart : 0 < g.child_config.startservers)
    (hcalloc : env.calloc_ok = true) (hmalloc : env.malloc_ok = true)
    (hfork : ∀ j, j < min g.child_config.startservers g.child_config.maxclients → 0 < env.fork j)
    (hb : ∀ i, ∀ m ∈ env.before_inc i, m.quiet) (ha : ∀ i, ∀ m ∈ env.after_inc i, m.quiet) :
    child_pool_create env g =
      Outcome.returned 0
        { child_config := { g.child_config with
            startservers := min g.child_config.startservers g.child_config.maxclients },
          child_ptr := some (populated_table env.fork g.child_config.maxclients
            (min g.child_config.startservers g.child_config.maxclients)),
          servers_waiting := some (min g.child_config.startservers g.child_config.maxclients : Nat),
          lock_ready := true }
        (min g.child_config.startservers g.child_config.maxclients) := by
  obtain ⟨cfg, cp, sw, lr⟩ := g
  obtain ⟨m, q, xs, mn, st⟩ := cfg
  simp only at hmax hstart hfork ⊢
  have hk : (clamp_startservers ⟨m, q, xs, mn, st⟩) = ⟨m, q, xs, mn, min st m⟩ := by
    unfold clamp_startservers
    by_cases h : st > m
    · simp [h, Nat.min_eq_right (Nat.le_of_lt h)]
    · simp [h, Nat.min_eq_left (Nat.le_of_not_lt h)]
  have hpop := populate_all_spawned ⟨m, q, xs, mn, min st m⟩ env hb ha (min st m) 0
    (m - min st m) [] [] 0 0 0 rfl (fun j _ h2 => hfork j (by omega)) (by simp)
  have hsum : min st m + (m - min st m) = m := by omega
  simp only [hsum, List.nil_append, zero_add, List.range'_eq_map_range] at hpop
  unfold child_pool_create
  simp only [hk, fresh_table_eq, hcalloc, hmalloc]
  rw [if_neg (by omega), if_neg (by omega), if_neg (by simp), if_neg (by simp)]
  simp only [hpop, populated_table]
  simp [List.range_eq_range']

/-- C1, as amended.  When `maxclients > 0`, `startservers > 0`, the two
shared-memory allocations succeed, every `fork()` gives the supervisor a
positive pid, and every step an already forked worker takes before the return
is quiet (the worker is not told to shut down, gets its buffer and gets no
connection from `accept`, so it writes nothing new into the shared memory),
`child_pool_create` returns 0 after `k = min startservers maxclients` forks and
leaves: the stored `startservers` equal to `k`, the counter equal to `k`, a
table of `maxclients` records in which exactly the slots `0 .. k-1` are Waiting
(each with the pid of its worker) and every other slot is Empty with
connection count 0; so `k` slots are Waiting. -/
theorem C1_pool_create_starts_min_workers (env : PoolEnv) (g : Globals)
    (hmax : 0 < g.child_config.maxclients) (hstart : 0 < g.child_config.startservers)
    (hcalloc : env.calloc_ok = true) (hmalloc : env.malloc_ok = true)
    (hfork : ∀ j, j < min g.child_config.startservers g.child_config.maxclients →
      0 < env.fork j)
    (hb : ∀ i, ∀ m ∈ env.before_inc i, m.quiet) (ha : ∀ i, ∀ m ∈ env.after_inc i, m.quiet) :
    ∃ slots : List child_s,
      child_pool_create env g =
        Outcome.returned 0
          { child_config := { g.child_config with
              startservers := min g.child_config.startservers g.child_config.maxclients },
            child_ptr := some slots,
            servers_waiting :=
              some (min g.child_config.startservers g.child_config.maxclients : Nat),
            lock_ready := true }
          (min g.child_config.startservers g.child_config.maxclients) ∧
      slots.length = g.child_config.maxclients ∧
      (∀ j, j < min g.child_config.startservers g.child_config.maxclients →
        slots[j]? = some { tid := env.fork j, connects := 0, status := Status.T_WAITING }) ∧
      (∀ j, min g.child_config.startservers g.child_config.maxclients ≤ j →
        j < g.child_config.maxclients →
        slots[j]? = some { tid := 0, connects := 0, status := Status.T_EMPTY }) ∧
      count_waiting slots = min g.child_config.startservers g.child_config.maxclients :=
  ⟨_, child_pool_create_ok env g hmax hstart hcalloc hmalloc hfork hb ha,
    populated_table_length _ _ _ (Nat.min_le_right _ _),
    fun j hj => populated_table_get_low _ _ _ j hj,
    fun j hj hm => populated_table_get_high _ _ _ j hj hm,
    count_waiting_populated _ _ _⟩

/-- C1, witness: MaxClients 4 and StartServers 6 give four Waiting workers
and the counter 4, worker 0 running as far as `accept` meanwhile. -/
theorem C1_pool_create_witness :
    ∃ slots : List child_s,
      child_pool_create patient (boot ⟨4, 0, 5, 1, 6⟩) =
        Outcome.returned 0
          { child_config := ⟨4, 0, 5, 1, 4⟩, child_ptr := some slots,
            servers_waiting := some 4, lock_ready := true } 4 ∧
      slots.length = 4 ∧
      (∀ j, j < 4 →
        slots[j]? = some { tid := patient.fork j, connects := 0, status := Status.T_WAITING }) ∧
      (∀ j, 4 ≤ j → j < 4 →
        slots[j]? = some { tid := 0, connects := 0, status := Status.T_EMPTY }) ∧
      count_waiting slots = 4 :=
  C1_pool_create_starts_min_workers patient (boot ⟨4, 0, 5, 1, 6⟩) (by decide) (by decide)
    rfl rfl (fun j _ => by simp only [patient, generous]; omega)
    (fun i m hm => by simp [patient, generous] at hm)
    (fun i m hm => by
      simp only [patient, List.mem_cons, List.mem_singleton, List.not_mem_nil, or_false,
        or_self] at hm
      subst hm
      exact ⟨rfl, rfl, by decide⟩)

/-- C1, counterexample.  MaxClients 1 and StartServers 1, `fork()` always
succeeding.  When `calloc_shared_memory` gives no memory `child_pool_create`
returns -1 without a worker, a table or a counter, and when
`malloc_shared_memory` fails it returns -1 without a counter.  When both
succeed and worker 0 takes a connection before the supervisor's `SERVER_INC`
(`hasty`), `child_pool_create` returns 0 and leaves slot 0 Connected and the
counter at 0, not one Waiting worker and the counter 1.  The system of steps
reaches the same memory when the supervisor passes line 322. -/
theorem C1_pool_create_other_outcomes :
    (∀ n, 0 < generous.fork n) ∧
    child_pool_create { generous with calloc_ok := false } (boot ⟨1, 0, 5, 1, 1⟩) =
      Outcome.returned (-1) (boot ⟨1, 0, 5, 1, 1⟩) 0 ∧
    child_pool_create { generous with malloc_ok := false } (boot ⟨1, 0, 5, 1, 1⟩) =
      Outcome.returned (-1)
        { boot ⟨1, 0, 5, 1, 1⟩ with child_ptr := some [zero_child] } 0 ∧
    child_pool_create hasty (boot ⟨1, 0, 5, 1, 1⟩) =
      Outcome.returned 0
        { child_config := ⟨1, 0, 5, 1, 1⟩,
          child_ptr := some [⟨100, 0, Status.T_CONNECTED⟩],
          servers_waiting := some 0, lock_ready := true } 1 ∧
    (run (start_sys ⟨1, 0, 5, 1, 1⟩)
        (eager_worker ++ [Action.supervisor fine, Action.supervisor fine])).sup = SPc.loop_top ∧
    (run (start_sys ⟨1, 0, 5, 1, 1⟩)
        (eager_worker ++ [Action.supervisor fine, Action.supervisor fine])).shared =
      { slots := [⟨100, 0, Status.T_CONNECTED⟩], waiting := 0, incs := 1, decs := 1 } := by
  refine ⟨fun n => ?_, by decide, by decide, by decide, by decide, by decide⟩
  simp only [generous]
  omega

/-- C2.  When `maxclients` or `startservers` is 0, `child_pool_create` returns
-1 having made no `fork()` and with every variable as it was: no table, no
slot marked Waiting, no counter created or incremented. -/
theorem C2_pool_create_rejects_zero (env : PoolEnv) (g : Globals)
    (h : g.child_config.maxclients = 0 ∨ g.child_config.startservers = 0) :
    child_pool_create env g = Outcome.returned (-1) g 0 := by
  unfold child_pool_create
  rcases h with h | h
  · simp [h]
  · simp [h]

/-- C2, witness: MaxClients 0, and StartServers 0, in a process that has not
allocated anything. -/
theorem C2_pool_create_rejects_zero_witness :
    child_pool_create generous (boot ⟨0, 0, 5, 1, 3⟩) =
        Outcome.returned (-1) (boot ⟨0, 0, 5, 1, 3⟩) 0 ∧
    (boot ⟨0, 0, 5, 1, 3⟩).servers_waiting = none ∧
    (boot ⟨0, 0, 5, 1, 3⟩).child_ptr = none :=
  ⟨C2_pool_create_rejects_zero generous (boot ⟨0, 0, 5, 1, 3⟩) (Or.inl rfl), rfl, rfl⟩

/-- C3, the code at the failing input.  `fork()` gives -1 for slot 1 of a pool
with MaxClients 4 and StartServers 3: `child_make` does not return a negative
id, it runs `child_main` in the supervisor; `child_pool_create` does not
return -1 there, the supervisor is inside `child_main(&child_ptr[1])` with
slot 1 Waiting.  For no value of `fork()` does `child_make` hand a value that
is not positive back to its caller. -/
theorem C3_failed_fork_runs_child_main :
    child_make (-1) = Made.runs_child_main ∧
    child_pool_create
        { calloc_ok := true, malloc_ok := true, fork := fun n => if n = 1 then -1 else 100 + n }
        (boot ⟨4, 0, 5, 1, 3⟩) =
      Outcome.in_child_main 1
        { child_config := ⟨4, 0, 5, 1, 3⟩,
          child_ptr := some [⟨100, 0, Status.T_WAITING⟩, ⟨0, 0, Status.T_WAITING⟩,
            zero_child, zero_child],
          servers_waiting := some 1, lock_ready := true } 2 ∧
    (∀ r pid : Int, child_make r = Made.parent pid → 0 < pid) := by
  refine ⟨by decide, by decide, fun r pid h => ?_⟩
  unfold child_make at h
  split at h
  · injection h with h; omega
  · cases h


/-! ## The comparisons of an int with an unsigned int -/

theorem toUnsigned_of_neg (c : Int) (h0 : -(2 ^ 31) ≤ c) (h1 : c < 0) :
    (toUnsigned c : Int) = c + 2 ^ 32 := by
  unfold toUnsigned
  have h : c % (2 ^ 32 : Int) = c + 2 ^ 32 := by
    rw [← Int.add_emod_self]
    exact Int.emod_eq_of_lt (by omega) (by omega)
  rw [h]
  exact Int.toNat_of_nonneg (by omega)

/-- A negative counter is converted to a value above every MaxSpareServers
below `2 ^ 31`: the comparison of line 207 then holds. -/
theorem too_many_spares_of_neg (c : Int) (m : Nat) (h0 : -(2 ^ 31) ≤ c) (h1 : c < 0)
    (hm : m < 2 ^ 31) : too_many_spares c m = true := by
  have h := toUnsigned_of_neg c h0 h1
  simp only [too_many_spares, decide_eq_true_eq]
  omega

/-- A negative counter is converted to a value that is not below any
MinSpareServers below `2 ^ 31`: the comparison of line 342 then fails. -/
theorem too_few_spares_of_neg (c : Int) (m : Nat) (h0 : -(2 ^ 31) ≤ c) (h1 : c < 0)
    (hm : m < 2 ^ 31) : too_few_spares c m = false := by
  have h := toUnsigned_of_neg c h0 h1
  simp only [too_few_spares, decide_eq_false_iff_not]
  omega

/-! ## child_main -/

theorem count_connection_step (K : Nat) (hK : 0 < K) (h32 : K < UINT_WIDTH) (c : child_s)
    (hlt : c.connects < K) :
    count_connection K c = ({ c with connects := c.connects + 1 }, decide (K ≤ c.connects + 1)) := by
  unfold count_connection
  have hmod : (c.connects + 1) % UINT_WIDTH = c.connects + 1 := Nat.mod_eq_of_lt (by omega)
  simp [hmod, Nat.pos_iff_ne_zero.mp hK]

theorem child_loop_limit (cfg : child_config_s) (hK : 0 < cfg.maxrequestsperchild)
    (h32 : cfg.maxrequestsperchild < UINT_WIDTH) (events : List Conn) :
    ∀ (ptr : child_s) (w : Int) (h : Nat), ptr.connects = h → h < cfg.maxrequestsperchild →
      (child_loop cfg events ptr w h).handled ≤ cfg.maxrequestsperchild ∧
      ((child_loop cfg events ptr w h).exit = some Exit.max_requests ↔
        (child_loop cfg events ptr w h).handled = cfg.maxrequestsperchild) ∧
      ((child_loop cfg events ptr w h).exit = none →
        (child_loop cfg events ptr w h).handled = h + accepted events) ∧
      (child_loop cfg events ptr w h).exit ≠ some Exit.no_memory ∧
      (child_loop cfg events ptr w h).slot.connects = (child_loop cfg events ptr w h).handled := by
  induction events with
  | nil =>
    intro ptr w h hc hlt
    simp [child_loop, accepted, hc]
    omega
  | cons e es ih =>
    intro ptr w h hc hlt
    subst hc
    have hc : ptr.connects = ptr.connects := rfl
    by_cases hfd : e.connfd < 0
    · have hacc : accepted (e :: es) = accepted es := by
        simp [accepted, List.filter_cons, not_le.mpr hfd]
      by_cases hq : e.quit = true
      · simp [child_loop, hfd, hq, leave, hc]
        omega
      · have hq' : e.quit = false := by simpa using hq
        simp only [child_loop, hfd, if_true, hq', hacc]
        exact ih _ w ptr.connects rfl hlt
    · have hacc : accepted (e :: es) = accepted es + 1 := by
        simp [accepted, List.filter_cons, not_lt.mp hfd]
      have hcnt := count_connection_step cfg.maxrequestsperchild hK h32
        { ptr with status := Status.T_CONNECTED } (by simpa [hc] using hlt)
      simp only [child_loop, hfd, if_false, hcnt, hacc]
      by_cases hfire : cfg.maxrequestsperchild ≤ ptr.connects + 1
      · simp [hfire, leave, hc]
        omega
      · simp only [hfire, decide_False, if_false, Bool.false_eq_true]
        by_cases hsp : too_many_spares (SERVER_DEC w + e.others_handling) cfg.maxspareservers = true
        · simp [hsp, leave, hc]
          omega
        · simp only [hsp, if_false]
          by_cases hq : e.quit = true
          · simp [hq, leave, hc]
            omega
          · have hq' : e.quit = false := by simpa using hq
            simp only [hq', if_false, Bool.false_eq_true]
            have := ih { ptr with status := Status.T_WAITING, connects := ptr.connects + 1 }
              (SERVER_INC (SERVER_DEC w + e.others_handling + e.others_unlocked))
              (ptr.connects + 1) rfl (by omega)
            simpa [Nat.add_assoc, Nat.add_comm 1] using this

theorem child_main_limit (cfg : child_config_s) (hK : 0 < cfg.maxrequestsperchild)
    (h32 : cfg.maxrequestsperchild < UINT_WIDTH) (malloc_ok quit : Bool) (events : List Conn)
    (ptr : child_s) (w : Int) :
    (child_main cfg malloc_ok quit events ptr w).handled ≤ cfg.maxrequestsperchild ∧
    ((child_main cfg malloc_ok quit events ptr w).exit = some Exit.max_requests ↔
      (child_main cfg malloc_ok quit events ptr w).handled = cfg.maxrequestsperchild) ∧
    ((child_main cfg malloc_ok quit events ptr w).exit = none →
      (child_main cfg malloc_ok quit events ptr w).handled = accepted events) := by
  unfold child_main
  cases malloc_ok
  · simp
    omega
  · cases quit
    · have h := child_loop_limit cfg hK h32 events
        { ptr with connects := 0, status := Status.T_WAITING } w 0 rfl hK
      simp only [Bool.true_eq_false, if_false, Bool.false_eq_true]
      refine ⟨h.1, h.2.1, fun hn => ?_⟩
      simpa using h.2.2.1 hn
    · simp [leave]
      omega

/-- C4.  A worker running `child_main` with `maxrequestsperchild = K > 0`, on
any sequence of events: it never handles more than `K` connections; it leaves
through the MaxRequestsPerChild `break` exactly when the number of connections
it has handled is `K` (so never after fewer, `K - 1` included, and always at
the `K`-th); and when `K` connections are accepted and the worker does not
leave for another reason (no memory, shutdown, surplus of spare servers), it
retires through that `break` having handled exactly `K`. -/
theorem C4_max_requests_fires_exactly_at_K (cfg : child_config_s) (K : Nat) (hK : 0 < K)
    (h32 : K < UINT_WIDTH) (hcfg : cfg.maxrequestsperchild = K) (malloc_ok quit : Bool)
    (events : List Conn) (ptr : child_s) (waiting : Int) :
    (child_main cfg malloc_ok quit events ptr waiting).handled ≤ K ∧
    ((child_main cfg malloc_ok quit events ptr waiting).exit = some Exit.max_requests ↔
      (child_main cfg malloc_ok quit events ptr waiting).handled = K) ∧
    (K ≤ accepted events →
      (child_main cfg malloc_ok quit events ptr waiting).exit ≠ some Exit.no_memory →
      (child_main cfg malloc_ok quit events ptr waiting).exit ≠ some Exit.quit →
      (child_main cfg malloc_ok quit events ptr waiting).exit ≠ some Exit.too_many_spares →
      (child_main cfg malloc_ok quit events ptr waiting).exit = some Exit.max_requests ∧
      (child_main cfg malloc_ok quit events ptr waiting).handled = K) := by
  subst hcfg
  have h := child_main_limit cfg hK h32 malloc_ok quit events ptr waiting
  refine ⟨h.1, h.2.1, fun hacc h1 h2 h3 => ?_⟩
  generalize child_main cfg malloc_ok quit events ptr waiting = r at h h1 h2 h3 ⊢
  obtain ⟨hle, hiff, hnone⟩ := h
  have hex : r.exit = some Exit.max_requests := by
    match hr : r.exit with
    | none =>
      have := hnone hr
      have hk := hiff.mpr (by omega)
      rw [hr] at hk
      cases hk
    | some Exit.no_memory => exact absurd hr h1
    | some Exit.quit => exact absurd hr h2
    | some Exit.too_many_spares => exact absurd hr h3
    | some Exit.max_requests => rfl
  exact ⟨hex, hiff.mp hex⟩

/-- C4, witness: with limit 2 and three connections on offer the worker
retires through the limit after exactly two; after one connection it is back
in `accept`, Waiting. -/
theorem C4_max_requests_witness :
    ((child_main ⟨4, 2, 5, 1, 4⟩ true false [quiet_conn, quiet_conn, quiet_conn]
        zero_child 3).exit = some Exit.max_requests ∧
      (child_main ⟨4, 2, 5, 1, 4⟩ true false [quiet_conn, quiet_conn, quiet_conn]
        zero_child 3).handled = 2) ∧
    child_main ⟨4, 2, 5, 1, 4⟩ true false [quiet_conn] zero_child 3 =
      { slot := ⟨0, 1, Status.T_WAITING⟩, waiting := 3, handled := 1, exit := none } :=
  ⟨(C4_max_requests_fires_exactly_at_K ⟨4, 2, 5, 1, 4⟩ 2 (by decide) (by decide) rfl true false
      [quiet_conn, quiet_conn, quiet_conn] zero_child 3).2.2
      (by decide) (by decide) (by decide) (by decide),
    by decide⟩

/-! ## child_main_loop -/

theorem balance_bounds (pc : WPc) : -1 ≤ pc.balance ∧ pc.balance ≤ 0 := by
  cases pc <;> simp [WPc.balance]
  case exited b => cases b <;> simp

theorem owed_bounds (sp : SPc) : -1 ≤ sp.owed := by
  cases sp <;> simp [SPc.owed]
  case as_worker p => exact (balance_bounds p.pc).1

theorem credit_nonneg (procs : List Proc) : 0 ≤ credit procs := by
  induction procs with
  | nil => simp [credit]
  | cons p ps ih =>
    have := (balance_bounds p.pc).1
    simp only [credit, List.map_cons, List.sum_cons] at ih ⊢
    omega

theorem credit_append_start (procs : List Proc) (i : Nat) :
    credit (procs ++ [⟨i, WPc.start⟩]) = credit procs + 1 := by
  simp [credit, WPc.balance]

theorem credit_set (procs : List Proc) (n : Nat) (p q : Proc) (h : procs[n]? = some p) :
    credit (procs.set n q) = credit procs - p.pc.balance + q.pc.balance := by
  induction procs generalizing n with
  | nil => simp at h
  | cons x xs ih =>
    cases n with
    | zero =>
      simp only [List.getElem?_cons_zero, Option.some.injEq] at h
      subst h
      simp only [credit, List.set_cons_zero, List.map_cons, List.sum_cons]
      omega
    | succ n =>
      simp only [List.getElem?_cons_succ] at h
      have := ih n h
      simp only [credit, List.set_cons_succ, List.map_cons, List.sum_cons] at this ⊢
      omega

theorem worker_step_balance (cfg : child_config_s) (quit : Bool) (env : Inputs) (p : Proc)
    (sh : Shared) :
    (worker_step cfg quit env p sh).2.waiting - sh.waiting =
        (worker_step cfg quit env p sh).1.pc.balance - p.pc.balance ∧
    ((worker_step cfg quit env p sh).2.incs : Int) - ((worker_step cfg quit env p sh).2.decs : Int)
        - ((sh.incs : Int) - (sh.decs : Int)) =
      (worker_step cfg quit env p sh).2.waiting - sh.waiting := by
  obtain ⟨slot, pc⟩ := p
  cases pc <;>
    simp only [worker_step] <;>
    (try split_ifs) <;>
    simp [WPc.balance, Shared.inc, Shared.dec, Shared.set_status, SERVER_INC, SERVER_DEC]

theorem step_balanced (s : Sys) (a : Action) (h : Balanced s) : Balanced (step s a) := by
  obtain ⟨h1, h2⟩ := h
  cases a with
  | set_quit => exact ⟨h1, h2⟩
  | worker n env =>
    simp only [step]
    cases hp : s.procs[n]? with
    | none => exact ⟨h1, h2⟩
    | some p =>
      have hw := worker_step_balance s.cfg s.quit env p s.shared
      have hc := credit_set s.procs n p (worker_step s.cfg s.quit env p s.shared).1 hp
      simp only [Balanced]
      constructor <;> omega
  | supervisor env =>
    obtain ⟨cfg, quit, sh, sup, procs⟩ := s
    simp only at h1 h2
    cases sup with
    | as_worker p =>
      have hw := worker_step_balance cfg quit env p sh
      simp only [step, supervisor_step, Balanced, SPc.owed] at h2 ⊢
      constructor <;> omega
    | create_spawn i =>
      simp only [step, supervisor_step, Balanced]
      split_ifs <;> (try split) <;> (try split_ifs) <;>
        simp_all [SPc.owed, Shared.set_status, credit_append_start, WPc.balance]
    | loop_scan =>
      simp only [step, supervisor_step, Balanced]
      split <;> (try split) <;> (try split_ifs) <;>
        simp_all [SPc.owed, Shared.set_status, credit_append_start, WPc.balance]
    | create_inc i =>
      simp only [step, supervisor_step, Balanced, Shared.inc, SERVER_INC, SPc.owed] at h2 ⊢
      constructor <;> push_cast <;> omega
    | loop_inc =>
      simp only [step, supervisor_step, Balanced, Shared.inc, SERVER_INC, SPc.owed] at h2 ⊢
      constructor <;> push_cast <;> omega
    | loop_top =>
      simp only [step, supervisor_step, Balanced]
      split_ifs <;> exact ⟨h1, h2⟩
    | loop_compare =>
      simp only [step, supervisor_step, Balanced]
      split_ifs <;> exact ⟨h1, h2⟩
    | create_failed => exact ⟨h1, h2⟩
    | loop_sleep => exact ⟨h1, h2⟩
    | loop_returned => exact ⟨h1, h2⟩

theorem run_balanced (schedule : List Action) : ∀ s, Balanced s → Balanced (run s schedule) := by
  induction schedule with
  | nil => intro s h; exact h
  | cons a rest ih => intro s h; exact ih (step s a) (step_balanced s a h)

theorem start_balanced (cfg : child_config_s) : Balanced (start_sys cfg) := by
  simp [Balanced, start_sys, credit, SPc.owed]

/-- C10, as amended.  In every state reached from the start of the population
loop by steps of the supervisor (`child_pool_create`, `child_main_loop`) and of
the workers (`child_main`) in any order, each access to the counter being one
step, the counter equals the number of increments performed minus the number
of decrements performed, and it is never below -1. -/
theorem C10_counter_is_net_sum (cfg : child_config_s) (schedule : List Action) :
    (run (start_sys cfg) schedule).shared.waiting =
      ((run (start_sys cfg) schedule).shared.incs : Int) -
        ((run (start_sys cfg) schedule).shared.decs : Int) ∧
    -1 ≤ (run (start_sys cfg) schedule).shared.waiting := by
  have h := run_balanced schedule (start_sys cfg) (start_balanced cfg)
  refine ⟨h.1, ?_⟩
  have h1 := credit_nonneg (run (start_sys cfg) schedule).procs
  have h2 := owed_bounds (run (start_sys cfg) schedule).sup
  rw [h.2]
  omega

/-- C10, counterexample.  With StartServers 1 the schedule `eager_worker`
reaches a state in which no increment and one decrement have been performed
and the counter is -1. -/
theorem C10_counter_negative :
    (run (start_sys ⟨1, 0, 5, 1, 1⟩) eager_worker).shared =
      { slots := [⟨100, 0, Status.T_CONNECTED⟩], waiting := -1, incs := 0, decs := 1 } ∧
    (run (start_sys ⟨1, 0, 5, 1, 1⟩) eager_worker).shared.waiting < 0 := by
  decide

/-! ## dnscache -/

/-- C7, as amended.  For a domain that `inet_aton` takes as a numeric
address, `dnscache` returns success with that address, makes no call of
`gethostbyname`, `ternary_search` or `ternary_insert`, and leaves the keys and
the records of the cache as they were.  When the tree exists the whole state
is unchanged and no call is made at all; when it does not exist yet the call
makes it (`ternary_new`), which is the only change. -/
theorem C7_literal_address (env : DnsEnv) (c : Cache) (domain : String) (a : Nat)
    (h : env.inet_aton domain = some a) :
    (dnscache env c domain).answer = Answer.ok a ∧
    resolutions (dnscache env c domain).calls = 0 ∧
    Call.ternary_search ∉ (dnscache env c domain).calls ∧
    Call.ternary_insert ∉ (dnscache env c domain).calls ∧
    (dnscache env c domain).cache.tree = c.tree ∧
    (dnscache env c domain).cache.heap = c.heap ∧
    (0 ≤ c.dns_tree → (dnscache env c domain).cache = c ∧ (dnscache env c domain).calls = []) ∧
    (c.dns_tree < 0 →
      (dnscache env c domain).cache.dns_tree = env.ternary_new ∧
      (dnscache env c domain).calls = [Call.ternary_new]) := by
  by_cases ht : c.dns_tree < 0
  · simp [dnscache, h, ensure_tree, ht, resolutions]
  · simp [dnscache, h, ensure_tree, ht, resolutions]

/-- C7, witness: 127.0.0.1 against a cache that holds an entry. -/
theorem C7_literal_address_witness :
    (dnscache (calm 0 none)
      { dns_tree := 0, tree := [("example.test", 0)], heap := [some ⟨7, 0⟩] }
      "127.0.0.1").answer = Answer.ok 2130706433 ∧
    ((dnscache (calm 0 none)
      { dns_tree := 0, tree := [("example.test", 0)], heap := [some ⟨7, 0⟩] }
      "127.0.0.1").cache =
        { dns_tree := 0, tree := [("example.test", 0)], heap := [some ⟨7, 0⟩] } ∧
     (dnscache (calm 0 none)
      { dns_tree := 0, tree := [("example.test", 0)], heap := [some ⟨7, 0⟩] }
      "127.0.0.1").calls = []) :=
  ⟨(C7_literal_address (calm 0 none)
      { dns_tree := 0, tree := [("example.test", 0)], heap := [some ⟨7, 0⟩] }
      "127.0.0.1" 2130706433 (by decide)).1,
   (C7_literal_address (calm 0 none)
      { dns_tree := 0, tree := [("example.test", 0)], heap := [some ⟨7, 0⟩] }
      "127.0.0.1" 2130706433 (by decide)).2.2.2.2.2.2.1 (by decide)⟩

/-- C7, counterexample.  The first call of a process, for 127.0.0.1: the
answer is 127.0.0.1, and the state after the call is not the state before it,
the call has made the tree. -/
theorem C7_first_call_makes_tree :
    literal_localhost "127.0.0.1" = some 2130706433 ∧
    (dnscache (calm 0 none) no_cache "127.0.0.1").answer = Answer.ok 2130706433 ∧
    (dnscache (calm 0 none) no_cache "127.0.0.1").cache ≠ no_cache ∧
    (dnscache (calm 0 none) no_cache "127.0.0.1").cache = { no_cache with dns_tree := 0 } ∧
    (dnscache (calm 0 none) no_cache "127.0.0.1").calls = [Call.ternary_new] := by
  decide

theorem dns_lookup_fresh (now t : Int) (d : Int) (tree : List (String × Nat))
    (heap : List (Option dnscache_s)) (domain : String) (a : Nat) (ht : 0 ≤ d) :
    dns_lookup now
        { dns_tree := d, tree := (domain, heap.length) :: tree,
          heap := heap ++ [some { ipaddr := a, expire := t }] } domain =
      if now - t ≤ 300 then Looked.hit a else Looked.miss := by
  have : ¬ d < 0 := by omega
  simp only [dns_lookup, ternary_search, this, if_false, List.find?_cons_of_pos, decide_True,
    TE_ISERROR, ne_eq, not_true_eq_false, decide_False, Bool.false_eq_true, DNSEXPIRE]
  simp
  split_ifs <;> first | rfl | omega

theorem dnscache_miss_inserts (env : DnsEnv) (c : Cache) (domain : String) (A : Nat)
    (hlit : env.inet_aton domain = none)
    (habsent : c.tree.find? (fun kv => decide (kv.1 = domain)) = none)
    (htree : 0 ≤ c.dns_tree ∨ 0 ≤ env.ternary_new)
    (hres : env.gethostbyname = some A)
    (hmalloc : env.malloc_ok = true) (hroom : env.tree_accepts = true) :
    dnscache env c domain =
      { answer := Answer.ok A,
        cache := { dns_tree := (ensure_tree env c).1.dns_tree,
                   tree := (domain, c.heap.length) :: c.tree,
                   heap := c.heap ++ [some { ipaddr := A, expire := env.now_insert }] },
        calls := (ensure_tree env c).2 ++
          [Call.ternary_search, Call.gethostbyname, Call.malloc, Call.ternary_insert] } ∧
    0 ≤ (ensure_tree env c).1.dns_tree := by
  have hd : 0 ≤ (ensure_tree env c).1.dns_tree := by
    unfold ensure_tree
    split_ifs with h
    · rcases htree with h' | h'
      · omega
      · simpa using h'
    · simpa using h
  have hd' : ¬ (ensure_tree env c).1.dns_tree < 0 := by omega
  have htr : (ensure_tree env c).1.tree = c.tree := by
    unfold ensure_tree; split_ifs <;> rfl
  have hhp : (ensure_tree env c).1.heap = c.heap := by
    unfold ensure_tree; split_ifs <;> rfl
  refine ⟨?_, hd⟩
  simp [dnscache, hlit, dns_lookup, ternary_search, hd', htr, hhp, habsent, TE_ISERROR, hres,
    dns_insert, hmalloc, ternary_insert, hroom]

theorem dnscache_hit (env : DnsEnv) (d : Int) (tree : List (String × Nat))
    (heap : List (Option dnscache_s)) (domain : String) (a : Nat) (t : Int) (ht : 0 ≤ d)
    (hlit : env.inet_aton domain = none) (hage : env.now_lookup - t ≤ 300) :
    dnscache env
        { dns_tree := d, tree := (domain, heap.length) :: tree,
          heap := heap ++ [some { ipaddr := a, expire := t }] } domain =
      { answer := Answer.ok a,
        cache := { dns_tree := d, tree := (domain, heap.length) :: tree,
                   heap := heap ++ [some { ipaddr := a, expire := t }] },
        calls := [Call.ternary_search] } := by
  have hd : ¬ d < 0 := by omega
  have hl := dns_lookup_fresh env.now_lookup t d tree heap domain a ht
  rw [if_pos hage] at hl
  simp only [dnscache, ensure_tree, hd, if_false, hlit, hl, List.nil_append]

/-- C8, as amended.  A domain that is not a numeric address and has no key in
the cache, a first call whose resolution gives `A` and whose insertion goes
through (a tree exists or is made, `malloc` gives the record, the tree takes
the key), and a second call whose clock is at most 300 past the time stored
by the first.  The first call returns `A` with one resolution call; the second
returns `A` with none and leaves the state as it was; and a lookup of the
stored entry at any time is a hit exactly when its age is at most 300. -/
theorem C8_second_call_within_ttl_hits (env0 env1 : DnsEnv) (c : Cache) (domain : String)
    (A : Nat)
    (hlit0 : env0.inet_aton domain = none) (hlit1 : env1.inet_aton domain = none)
    (habsent : c.tree.find? (fun kv => decide (kv.1 = domain)) = none)
    (htree : 0 ≤ c.dns_tree ∨ 0 ≤ env0.ternary_new)
    (hres : env0.gethostbyname = some A)
    (hmalloc : env0.malloc_ok = true) (hroom : env0.tree_accepts = true)
    (hage : env1.now_lookup - env0.now_insert ≤ 300) :
    (dnscache env0 c domain).answer = Answer.ok A ∧
    resolutions (dnscache env0 c domain).calls = 1 ∧
    (dnscache env1 (dnscache env0 c domain).cache domain).answer = Answer.ok A ∧
    resolutions (dnscache env1 (dnscache env0 c domain).cache domain).calls = 0 ∧
    (dnscache env1 (dnscache env0 c domain).cache domain).cache = (dnscache env0 c domain).cache ∧
    (∀ now : Int, dns_lookup now (dnscache env0 c domain).cache domain =
      if now - env0.now_insert ≤ 300 then Looked.hit A else Looked.miss) := by
  obtain ⟨h1, hd⟩ := dnscache_miss_inserts env0 c domain A hlit0 habsent htree hres hmalloc hroom
  have h2 := dnscache_hit env1 (ensure_tree env0 c).1.dns_tree c.tree c.heap domain A
    env0.now_insert hd hlit1 hage
  rw [h1]
  dsimp only
  rw [h2]
  refine ⟨rfl, ?_, rfl, by simp [resolutions], rfl, fun now => ?_⟩
  · unfold ensure_tree
    split_ifs <;> simp [resolutions]
  · exact dns_lookup_fresh now env0.now_insert _ c.tree c.heap domain A hd

/-- C8, witness: example.test resolved to 7 at time 0 and asked again at time
300, with a resolver that would now answer 9. -/
theorem C8_second_call_witness :
    (dnscache (calm 0 (some 7)) no_cache "example.test").answer = Answer.ok 7 ∧
    resolutions (dnscache (calm 0 (some 7)) no_cache "example.test").calls = 1 ∧
    (dnscache (calm 300 (some 9)) (dnscache (calm 0 (some 7)) no_cache "example.test").cache
      "example.test").answer = Answer.ok 7 ∧
    resolutions (dnscache (calm 300 (some 9))
      (dnscache (calm 0 (some 7)) no_cache "example.test").cache "example.test").calls = 0 :=
  have h := C8_second_call_within_ttl_hits (calm 0 (some 7)) (calm 300 (some 9)) no_cache
    "example.test" 7 (by decide) (by decide) (by decide) (by decide) (by decide) (by decide)
    (by decide) (by decide)
  ⟨h.1, h.2.1, h.2.2.1, h.2.2.2.1⟩

/-- C8, counterexample.  example.test, not in the cache, is resolved to 7 at
time 0 by a call in which `malloc` gives no record; the call returns 7.  The
second call, at time 10, makes a resolution call again. -/
theorem C8_lost_insert_resolves_again :
    (dnscache { calm 0 (some 7) with malloc_ok := false } no_cache "example.test").answer
      = Answer.ok 7 ∧
    resolutions
      (dnscache (calm 10 (some 7))
        (dnscache { calm 0 (some 7) with malloc_ok := false } no_cache "example.test").cache
        "example.test").calls = 1 := by
  decide

/-- C9, the code at the failing input.  The cache holds example.test with
address 7 stored at time 0.  A call at time 301 finds the entry stale, makes
one resolution call and returns the new address 8; `dns_insert` frees the old
record, its second `ternary_insert` collides again and it frees the new record
too.  Afterwards the key still points to the freed old record, the cache holds
no entry (8, 301) for the domain, and the next call, at time 302, reads the
freed record. -/
theorem C9_stale_entry_is_not_replaced :
    (dnscache (calm 0 (some 7)) no_cache "example.test").cache =
      { dns_tree := 0, tree := [("example.test", 0)], heap := [some ⟨7, 0⟩] } ∧
    dns_lookup 301 { dns_tree := 0, tree := [("example.test", 0)], heap := [some ⟨7, 0⟩] }
      "example.test" = Looked.miss ∧
    dnscache (calm 301 (some 8))
        { dns_tree := 0, tree := [("example.test", 0)], heap := [some ⟨7, 0⟩] } "example.test" =
      { answer := Answer.ok 8,
        cache := { dns_tree := 0, tree := [("example.test", 0)], heap := [none, none] },
        calls := [Call.ternary_search, Call.gethostbyname, Call.malloc, Call.ternary_insert,
                  Call.ternary_search, Call.free, Call.ternary_insert, Call.free] } ∧
    entry { dns_tree := 0, tree := [("example.test", 0)], heap := [none, none] } "example.test"
      = none ∧
    (dnscache (calm 302 (some 8))
        { dns_tree := 0, tree := [("example.test", 0)], heap := [none, none] }
        "example.test").answer = Answer.undefined := by
  decide

end Tinyproxy
